import Mathlib

/-!
# esp_snmp: SNMP router monitor on a 20x4 character LCD

A shallow embedding of `src/main.cpp` (an ESP32 Arduino sketch) and the
properties proved about it.

Conventions of the embedding.

* A C string is the list of its characters before the terminating NUL
  (`CStr`).  A `char buf[n]` filled by `snprintf(buf, n, ...)` holds the
  formatted text cut to `n - 1` characters.
* `unsigned long` and `unsigned int` are 32 bits wide on the ESP32; they are
  natural numbers reduced modulo `2^32`.  `int` is a 32-bit two's-complement
  integer; arithmetic on it is carried out in `Int` and wrapped by `wrapInt32`.
  `long long unsigned int` is a natural number below `2^64`.
* `float` values are represented exactly, as a numerator and a positive
  denominator: every `float` the sketch computes from a byte count is an
  integer below `2^64` rounded to 24 significant bits and divided by a power of
  two, which is exact in binary floating point.
* The display is four rows of text: `lcd.clear()` blanks every row, and
  `lcd.setCursor(0, r); lcd.print(s)` sets the text of row `r` to `s`.
-/

namespace EspSnmp

/-! ## C strings and `printf` conversions -/

/-- A C string: its characters before the terminating NUL. -/
abbrev CStr := List Char

/-- The text `n` blanks long. -/
def spaces (n : Nat) : CStr := List.replicate n ' '

/-- `snprintf(buf, maxLen, ...)`: what `buf` holds afterwards, given the fully
formatted text: at most `maxLen - 1` characters of it. -/
def snprintf (maxLen : Nat) (formatted : CStr) : CStr := formatted.take (maxLen - 1)

/-- The conversion `%*s` with a non-negative width: the argument right-justified
in a field of `width` columns. -/
def fmtStrWidth (width : Nat) (s : CStr) : CStr := spaces (width - s.length) ++ s

/-- The conversion `%u` (and `%d`, `%lu` on a non-negative value): plain decimal. -/
def fmtUnsigned (n : Nat) : CStr := Nat.toDigits 10 n

/-- The conversion `%d`. -/
def fmtInt (i : Int) : CStr :=
  if i < 0 then '-' :: Nat.toDigits 10 i.natAbs else Nat.toDigits 10 i.natAbs

/-- The conversion `%02lu`: decimal, padded with zeros to two digits. -/
def fmtUnsigned02 (n : Nat) : CStr :=
  let d := Nat.toDigits 10 n
  List.replicate (2 - d.length) '0' ++ d

/-! ## formatCentered (main.cpp, lines 111-120) -/

/-- `formatCentered(input, output, maxLen, lcdWidth)`: the text left in `output`. -/
def formatCentered (input : CStr) (maxLen : Nat) (lcdWidth : Nat) : CStr :=
  let len := input.length
  if len > lcdWidth then
    -- strncpy(output, input, lcdWidth); output[lcdWidth] = 0
    input.take lcdWidth
  else
    let padding := (lcdWidth - len) / 2
    snprintf maxLen
      (fmtStrWidth padding [] ++ input ++ fmtStrWidth (lcdWidth - len - padding) [])

/-! ## The poll scheduler (main.cpp, lines 46-47, 67-77, 348-368) -/

/-- Number of values of a 32-bit unsigned integer. -/
def U32 : Nat := 2 ^ 32

/-- Subtraction of `unsigned long` values. -/
def subU32 (a b : Nat) : Nat := (a % U32 + (U32 - b % U32)) % U32

/-- Addition of `unsigned long` values. -/
def addU32 (a b : Nat) : Nat := (a + b) % U32

/-- `pollIntervals[]`, in milliseconds. -/
def pollIntervals : List Nat := [1000, 3000, 5000, 10000, 15000, 20000, 25000, 30000, 60000]

/-- `numIntervals`. -/
def numIntervals : Nat := 9

/-- `menuDisplayDuration`, in milliseconds. -/
def menuDisplayDuration : Nat := 3000

/-- The scheduler's globals. -/
structure Sched where
  pollStart : Nat
  pollInterval : Nat
  currentIntervalIndex : Nat
  menuDisplayStart : Nat
  buttonPressed : Bool
  deriving DecidableEq

/-- The globals as their declarations initialise them. -/
def Sched.init : Sched :=
  { pollStart := 0
    pollInterval := pollIntervals.getD 2 0
    currentIntervalIndex := 2
    menuDisplayStart := 0
    buttonPressed := false }

/-- Button handling in `loop()` (lines 353-360); `pinLow` is
`digitalRead(buttonPin) == LOW` and `now` the value `millis()` returns. -/
def handleButton (s : Sched) (pinLow : Bool) (now : Nat) : Sched :=
  if s.buttonPressed then
    let s1 :=
      if pinLow then
        let idx := (s.currentIntervalIndex + 1) % numIntervals
        { s with currentIntervalIndex := idx
                 pollInterval := pollIntervals.getD idx 0
                 menuDisplayStart := now }
      else s
    { s1 with buttonPressed := false }
  else s

/-- The poll check of `loop()` (lines 362-368) on the scheduler's variables:
whether the poll fires at time `now`, and `pollStart` afterwards. -/
def pollCheck (pollStart pollInterval now : Nat) : Bool × Nat :=
  let intervalBetweenPolls := subU32 now pollStart
  if intervalBetweenPolls ≥ pollInterval then
    (true, addU32 pollStart pollInterval)
  else
    (false, pollStart)

/-- The poll check run at each time of a list in turn, with a fixed interval:
the number of times it fired and `pollStart` at the end. -/
def pollRun (pollInterval : Nat) : Nat → List Nat → Nat × Nat
  | pollStart, [] => (0, pollStart)
  | pollStart, now :: rest =>
    let r := pollCheck pollStart pollInterval now
    let q := pollRun pollInterval r.2 rest
    ((if r.1 then 1 else 0) + q.1, q.2)

/-! ## formatTraffic and formatFirstLine (main.cpp, lines 84-134) -/

/-- Number of halvings, at most `fuel`, that bring `n` below `2^24`. -/
def f32Shift : Nat → Nat → Nat
  | 0, _ => 0
  | fuel + 1, n => if n < 2 ^ 24 then 0 else f32Shift fuel (n / 2) + 1

/-- `float value = bytes;` for a 64-bit unsigned `bytes`: the value of the
nearest `float` (24 significant bits, ties to the even significand).  The
result is an integer, so it is returned as a natural number. -/
def toFloat32 (n : Nat) : Nat :=
  if n < 2 ^ 24 then n
  else
    let e := f32Shift 40 n
    let q := n / 2 ^ e
    let r := n % 2 ^ e
    let half := 2 ^ e / 2
    let q1 := if r > half ∨ (r = half ∧ q % 2 = 1) then q + 1 else q
    q1 * 2 ^ e

/-- Rounding of the fraction `num / den` to the nearest integer, ties to even. -/
def roundHalfEven (num den : Nat) : Nat :=
  let q := num / den
  let r := num % den
  if 2 * r > den ∨ (2 * r = den ∧ q % 2 = 1) then q + 1 else q

/-- The conversion `%.<prec>f` of the value `num / den`, negative when `neg`. -/
def fmtFixed (prec : Nat) (neg : Bool) (num den : Nat) : CStr :=
  let t := roundHalfEven (num * 10 ^ prec) den
  let ip := Nat.toDigits 10 (t / 10 ^ prec)
  let fp := Nat.toDigits 10 (t % 10 ^ prec)
  (if neg then ['-'] else []) ++ ip ++ '.' :: (List.replicate (prec - fp.length) '0' ++ fp)

/-- The branch `formatTraffic` takes (lines 85-100): the `float` made from
`bytes`, the power of 1024 it is divided by, and the unit letter. -/
def scaleTraffic (bytes : Nat) : Nat × Nat × Char :=
  let value := toFloat32 bytes
  if value ≥ 1099511627776 then (value, 1099511627776, 'T')
  else if value ≥ 1073741824 then (value, 1073741824, 'G')
  else if value ≥ 1048576 then (value, 1048576, 'M')
  else (value, 1024, 'K')

/-- The unit letter `formatTraffic` chooses. -/
def trafficUnit (bytes : Nat) : Char := (scaleTraffic bytes).2.2

/-- The magnitude `formatTraffic` prints: `value` after the division. -/
def trafficMagnitude (bytes : Nat) : ℚ :=
  ((scaleTraffic bytes).1 : ℚ) / ((scaleTraffic bytes).2.1 : ℚ)

/-- Lines 104-107: cut the buffer at its first `.` when the text from there on
is exactly `.0`. -/
def stripDotZero (buffer : CStr) : CStr :=
  let decimal := buffer.dropWhile (fun c => c != '.')
  if decimal = ['.', '0'] then buffer.takeWhile (fun c => c != '.') else buffer

/-- `formatTraffic(bytes, buffer, maxLen)`: the text left in `buffer`. -/
def formatTraffic (bytes : Nat) (maxLen : Nat) : CStr :=
  let sc := scaleTraffic bytes
  stripDotZero (snprintf maxLen (fmtFixed 1 false sc.1 sc.2.1 ++ [sc.2.2]))

/-- `formatFirstLine(inBytes, outBytes, output, maxLen)`. -/
def formatFirstLine (inBytes outBytes : Nat) (maxLen : Nat) : CStr :=
  let dnStr := formatTraffic inBytes 10
  let upStr := formatTraffic outBytes 10
  let temp := snprintf 21 ("DN:".toList ++ dnStr ++ " UP:".toList ++ upStr)
  formatCentered temp maxLen 20

/-! ## The monitored quantities and their derived values -/

/-- A decimal value: `num / den`, negative when `neg`. -/
structure Dec where
  neg : Bool
  num : Nat
  den : Nat
  deriving DecidableEq

/-- The value `0.0`. -/
def Dec.zero : Dec := { neg := false, num := 0, den := 1 }

/-- Comparison with `0.0`. -/
def Dec.isZero (d : Dec) : Bool := d.num == 0

/-- The value of a string of decimal digits. -/
def digitsValue (ds : CStr) : Nat := ds.foldl (fun acc c => 10 * acc + (c.toNat - 48)) 0

/-- A model of the C library's `atof` on plain decimal text: optional white
space (blank, tab, carriage return, line feed), an optional sign, digits, and
an optional fraction; parsing stops at the first other character.  Exponents,
`inf`, `nan` and hexadecimal forms are not covered, and the value is kept exact
(no rounding to binary). -/
def atof (s : CStr) : Dec :=
  let s1 := s.dropWhile Char.isWhitespace
  let neg := s1.head? == some '-'
  let s2 := if s1.head? == some '-' ∨ s1.head? == some '+' then s1.tail else s1
  let ip := s2.takeWhile Char.isDigit
  let rest := s2.dropWhile Char.isDigit
  let fp := if rest.head? == some '.' then rest.tail.takeWhile Char.isDigit else []
  { neg := neg, num := digitsValue (ip ++ fp), den := 10 ^ fp.length }

/-- The 32-bit two's-complement value of an integer. -/
def wrapInt32 (x : Int) : Int := (x + 2147483648) % 4294967296 - 2147483648

/-- The values delivered by the SNMP callbacks (lines 32-45).  A load string
is `none` while the pointer is null. -/
structure Metrics where
  inOctetsResponse : Nat
  outOctetsResponse : Nat
  uptime : Nat
  load1Str : Option CStr
  load5Str : Option CStr
  load15Str : Option CStr
  memTotalReal : Int
  memAvailReal : Int
  memBuffer : Int
  memCached : Int
  dskPercent : Int
  deriving DecidableEq

/-- The metrics when `loop()` first runs: the numeric slots as their
declarations initialise them, the load strings as `setup()` fills them. -/
def Metrics.startup : Metrics :=
  { inOctetsResponse := 0
    outOctetsResponse := 0
    uptime := 0
    load1Str := some "0.0".toList
    load5Str := some "0.0".toList
    load15Str := some "0.0".toList
    memTotalReal := 0
    memAvailReal := 0
    memBuffer := 0
    memCached := 0
    dskPercent := 0 }

/-- Lines 197-199: `(str && str[0] != 0) ? atof(str) : 0.0`. -/
def parseLoad (str : Option CStr) : Dec :=
  match str with
  | some (c :: cs) => atof (c :: cs)
  | _ => Dec.zero

/-- Line 202-203: `usedMemory`. -/
def usedMemory (m : Metrics) : Int :=
  if m.memTotalReal > 0 ∧ m.memAvailReal ≥ 0 ∧ m.memBuffer ≥ 0 ∧ m.memCached ≥ 0 then
    wrapInt32 (wrapInt32 (wrapInt32 (m.memTotalReal - m.memAvailReal) - m.memBuffer)
      - m.memCached)
  else 0

/-- Line 204: `ramUsage`, an `unsigned int`. -/
def ramUsage (m : Metrics) : Nat :=
  if m.memTotalReal > 0 ∧ usedMemory m ≥ 0 then
    ((wrapInt32 (usedMemory m * 100)).tdiv m.memTotalReal % 4294967296).toNat
  else 0

/-- Line 230: the condition under which the RAM half of line 3 is `Err`. -/
def ramErr (m : Metrics) : Bool :=
  decide (m.memTotalReal ≤ 0 ∨ m.memAvailReal < 0 ∨ m.memBuffer < 0 ∨ m.memCached < 0
    ∨ usedMemory m < 0)

/-- Lines 231 and 237: the condition under which the disk half is `Err`. -/
def diskErr (m : Metrics) : Bool := decide (m.dskPercent < 0 ∨ m.dskPercent > 100)

/-! ## The four lines printToLCD composes (main.cpp, lines 183-266) -/

/-- Lines 187-190: the overlay line. -/
def overlayLine (pollInterval : Nat) : CStr :=
  let pollStr := snprintf 18 ("Poll interval: ".toList ++ fmtUnsigned (pollInterval / 1000)
    ++ "s".toList)
  formatCentered pollStr 21 20

/-- Lines 207-208: `firstLine`. -/
def firstLine (m : Metrics) : CStr := formatFirstLine m.inOctetsResponse m.outOctetsResponse 21

/-- Lines 216-221: `loadStr`. -/
def loadStr (m : Metrics) : CStr :=
  let load1 := parseLoad m.load1Str
  let load5 := parseLoad m.load5Str
  let load15 := parseLoad m.load15Str
  if load1.isZero ∧ load5.isZero ∧ load15.isZero then
    snprintf 21 "Load: Err".toList
  else
    snprintf 21 ("Load: ".toList ++ fmtFixed 2 load1.neg load1.num load1.den
      ++ " ".toList ++ fmtFixed 2 load5.neg load5.num load5.den
      ++ " ".toList ++ fmtFixed 2 load15.neg load15.num load15.den)

/-- Lines 229-242: `ramDiskStr`. -/
def ramDiskStr (m : Metrics) : CStr :=
  if ramErr m then
    if diskErr m then
      snprintf 21 "RAM: Err Disk: Err".toList
    else
      snprintf 21 ("RAM: Err Disk: ".toList ++ fmtInt m.dskPercent ++ "%".toList)
  else
    if diskErr m then
      snprintf 21 ("RAM: ".toList ++ fmtUnsigned (ramUsage m) ++ "% Disk: Err".toList)
    else
      snprintf 21 ("RAM: ".toList ++ fmtUnsigned (ramUsage m) ++ "% Disk: ".toList
        ++ fmtInt m.dskPercent ++ "%".toList)

/-- Lines 250-256: days, hours, minutes and seconds of an uptime in hundredths
of a second. -/
def splitUptime (uptime : Nat) : Nat × Nat × Nat × Nat :=
  let seconds := uptime / 100
  let days := seconds / (24 * 3600)
  let seconds1 := seconds % (24 * 3600)
  let hours := seconds1 / 3600
  let seconds2 := seconds1 % 3600
  let minutes := seconds2 / 60
  let seconds3 := seconds2 % 60
  (days, hours, minutes, seconds3)

/-- Lines 257-258: `uptimeStr`, a buffer of 16 characters. -/
def uptimeStr (uptime : Nat) : CStr :=
  let t := splitUptime uptime
  snprintf 16 ("Up: ".toList ++ fmtUnsigned t.1 ++ ":".toList ++ fmtUnsigned02 t.2.1
    ++ ":".toList ++ fmtUnsigned02 t.2.2.1 ++ ":".toList ++ fmtUnsigned02 t.2.2.2)

/-- Lines 259-260: `centeredUptime`. -/
def uptimeLine (m : Metrics) : CStr := formatCentered (uptimeStr m.uptime) 21 20

/-! ## The display and the differential renderer -/

/-- The text on the four rows of the display. -/
structure LCD where
  row0 : CStr
  row1 : CStr
  row2 : CStr
  row3 : CStr
  deriving DecidableEq

/-- The display after `lcd.clear()`. -/
def LCD.clear : LCD := { row0 := [], row1 := [], row2 := [], row3 := [] }

/-- The display after `lcd.setCursor(0, row); lcd.print(s)`. -/
def LCD.printAt (lcd : LCD) (row : Nat) (s : CStr) : LCD :=
  match row with
  | 0 => { lcd with row0 := s }
  | 1 => { lcd with row1 := s }
  | 2 => { lcd with row2 := s }
  | 3 => { lcd with row3 := s }
  | _ => lcd

/-- The renderer's state: the cached lines (lines 78-81) and the display. -/
structure Renderer where
  prevFirstLine : CStr
  prevLoadStr : CStr
  prevRamDiskStr : CStr
  prevUptimeStr : CStr
  lcd : LCD
  deriving DecidableEq

/-- The renderer when `loop()` first runs: `setup()` ends with `lcd.clear()`
and the cached lines are empty. -/
def Renderer.startup : Renderer :=
  { prevFirstLine := [], prevLoadStr := [], prevRamDiskStr := [], prevUptimeStr := []
    lcd := LCD.clear }

/-- Line 185: whether the overlay is active at time `now`. -/
def overlayActive (now menuDisplayStart : Nat) : Bool :=
  decide (subU32 now menuDisplayStart < menuDisplayDuration)

/-- The overlay branch of `printToLCD` (lines 186-193). -/
def printOverlay (pollInterval : Nat) (r : Renderer) : Renderer :=
  { r with lcd := LCD.printAt LCD.clear 0 (overlayLine pollInterval) }

/-- The normal branch of `printToLCD` (lines 196-265). -/
def printNormal (m : Metrics) (r : Renderer) : Renderer :=
  let r1 :=
    if firstLine m ≠ r.prevFirstLine then
      { r with lcd := r.lcd.printAt 0 (firstLine m), prevFirstLine := firstLine m }
    else r
  let r2 :=
    if loadStr m ≠ r1.prevLoadStr then
      { r1 with lcd := r1.lcd.printAt 1 (loadStr m), prevLoadStr := loadStr m }
    else r1
  let r3 :=
    if ramDiskStr m ≠ r2.prevRamDiskStr then
      { r2 with lcd := r2.lcd.printAt 2 (ramDiskStr m), prevRamDiskStr := ramDiskStr m }
    else r2
  if uptimeLine m ≠ r3.prevUptimeStr then
    { r3 with lcd := r3.lcd.printAt 3 (uptimeLine m), prevUptimeStr := uptimeLine m }
  else r3

/-- `printToLCD()`; `now` is the value `millis()` returns at line 185. -/
def printToLCD (now : Nat) (s : Sched) (m : Metrics) (r : Renderer) : Renderer :=
  if overlayActive now s.menuDisplayStart then printOverlay s.pollInterval r
  else printNormal m r

/-- A run of `printToLCD` calls, each with its time, scheduler state and
metrics. -/
def renderAll (r : Renderer) : List (Nat × Sched × Metrics) → Renderer
  | [] => r
  | c :: cs => renderAll (printToLCD c.1 c.2.1 c.2.2 r) cs

/-! ## Sample inputs -/

/-- A host with 32 GiB of memory (values in KB), 25 GiB of it in use. -/
def ramOverflowMetrics : Metrics :=
  { Metrics.startup with
    memTotalReal := 33554432, memAvailReal := 4194304, memBuffer := 1048576
    memCached := 2097152, dskPercent := 50 }

/-- Memory values whose difference `total - available - buffers - cached` lies
below the 32-bit range. -/
def ramWrapMetrics : Metrics :=
  { Metrics.startup with
    memTotalReal := 1, memAvailReal := 2147483647, memBuffer := 2147483647
    memCached := 0, dskPercent := 0 }

/-- A device that has been up for exactly 100 days. -/
def hundredDaysMetrics : Metrics := { Metrics.startup with uptime := 864000000 }

/-- The scheduler after one handled button press at time 50000: the interval
moves from 5000 to 10000 ms and the overlay starts. -/
def pressedSched : Sched := handleButton { Sched.init with buttonPressed := true } true 50000

/-- Three calls of `printToLCD` on unchanged metrics: at 46200 ms, before any
button press; at 51200 ms, 1.2 s after the press, while the overlay is active;
and at 61200 ms, when it no longer is. -/
def overlayThenNormal : List (Nat × Sched × Metrics) :=
  [(46200, Sched.init, Metrics.startup), (51200, pressedSched, Metrics.startup),
   (61200, pressedSched, Metrics.startup)]

/-- The text the overlay announces for a poll interval: the interval in whole
seconds followed by the unit. -/
def overlayText (pollInterval : Nat) : CStr :=
  "Poll interval: ".toList ++ fmtUnsigned (pollInterval / 1000) ++ "s".toList

/-- The uptime text in full: days in plain decimal, then hours, minutes and
seconds with two digits each. -/
def uptimeText (d h mi s : Nat) : CStr :=
  "Up: ".toList ++ fmtUnsigned d ++ ":".toList ++ fmtUnsigned02 h
    ++ ":".toList ++ fmtUnsigned02 mi ++ ":".toList ++ fmtUnsigned02 s

/-! # Properties -/

/-! ## The poll scheduler -/

/-- The deadline after a run of poll checks is the initial deadline advanced by
one interval per fire, modulo `2^32`. -/
theorem pollRun_deadline (pollInterval : Nat) (times : List Nat) :
    ∀ pollStart, pollStart < 2 ^ 32 →
      (pollRun pollInterval pollStart times).2
        = (pollStart + (pollRun pollInterval pollStart times).1 * pollInterval) % 2 ^ 32 := by
  induction times with
  | nil =>
    intro pollStart h
    simp only [pollRun]
    omega
  | cons now rest ih =>
    intro pollStart h
    simp only [pollRun]
    by_cases hf : subU32 now pollStart ≥ pollInterval
    · have h1 : pollCheck pollStart pollInterval now = (true, addU32 pollStart pollInterval) := by
        simp [pollCheck, hf]
      have h2 : addU32 pollStart pollInterval < 2 ^ 32 := by
        simp only [addU32, U32]; omega
      rw [h1]
      simp only [if_true]
      rw [ih _ h2]
      simp only [addU32, U32, Nat.add_mul, Nat.one_mul]
      omega
    · have h1 : pollCheck pollStart pollInterval now = (false, pollStart) := by
        simp [pollCheck, hf]
      rw [h1]
      simp only [Bool.false_eq_true, if_false, Nat.zero_add]
      exact ih _ h

/-- C1: with 32-bit unsigned milliseconds, the poll check fires exactly when
`(now - pollStart) mod 2^32 >= pollInterval`; when it fires `pollStart` becomes
`pollStart + pollInterval` modulo `2^32` (never `now`); when it does not fire
`pollStart` is unchanged; and after any run of checks with a fixed interval the
deadline is the initial one plus the number of fires times the interval,
modulo `2^32`. -/
theorem pollCheck_advances_by_interval (pollStart pollInterval now : Nat)
    (hs : pollStart < 2 ^ 32) :
    ((pollCheck pollStart pollInterval now).1 = true
        ↔ (pollInterval : Int) ≤ ((now : Int) - (pollStart : Int)) % 2 ^ 32)
    ∧ ((pollCheck pollStart pollInterval now).1 = true
        → (pollCheck pollStart pollInterval now).2 = (pollStart + pollInterval) % 2 ^ 32)
    ∧ ((pollCheck pollStart pollInterval now).1 = false
        → (pollCheck pollStart pollInterval now).2 = pollStart)
    ∧ ∀ times : List Nat,
        (pollRun pollInterval pollStart times).2
          = (pollStart + (pollRun pollInterval pollStart times).1 * pollInterval) % 2 ^ 32 := by
  refine ⟨?_, ?_, ?_, fun times => pollRun_deadline pollInterval times pollStart hs⟩
  · by_cases hf : subU32 now pollStart ≥ pollInterval
    · simp only [pollCheck, hf, if_true, true_iff]
      simp only [subU32, U32] at hf
      omega
    · simp only [pollCheck, hf, if_false, Bool.false_eq_true, false_iff]
      simp only [subU32, U32] at hf
      omega
  · by_cases hf : subU32 now pollStart ≥ pollInterval
    · simp [pollCheck, hf, addU32, U32]
    · simp [pollCheck, hf]
  · by_cases hf : subU32 now pollStart ≥ pollInterval
    · simp [pollCheck, hf]
    · simp [pollCheck, hf]

/-- C1 at a concrete state: at `now = 5000` with `pollStart = 0` and the default
interval the check fires and the deadline moves to 5000; three fires in a row
move it to 15000. -/
theorem pollCheck_advances_by_interval_witness :
    (pollCheck 0 5000 5000).1 = true
    ∧ (pollCheck 0 5000 5000).2 = (0 + 5000) % 2 ^ 32
    ∧ (pollRun 5000 0 [5000, 10000, 15000]).2
        = (0 + (pollRun 5000 0 [5000, 10000, 15000]).1 * 5000) % 2 ^ 32 :=
  have h := pollCheck_advances_by_interval 0 5000 5000 (by decide)
  ⟨by decide, h.2.1 (by decide), h.2.2.2 [5000, 10000, 15000]⟩

/-- C2, refuted as stated: in the state `loop()` first meets (`pollStart = 0`,
interval 5000 ms, some 46 s after power-up) the check fires at `t1 = 46200` and
fires again at `t2 = 46400`, although `t2 - t1 = 200 < 5000`. -/
theorem pollCheck_fires_twice_in_window :
    5000 ∈ pollIntervals ∧ 46200 ≤ 46400 ∧ 46400 - 46200 < 5000
    ∧ (pollCheck Sched.init.pollStart Sched.init.pollInterval 46200).1 = true
    ∧ (pollCheck (pollCheck Sched.init.pollStart Sched.init.pollInterval 46200).2
        Sched.init.pollInterval 46400).1 = true := by
  decide

/-- C2, amended: for times `t1 <= t2` with `t2 - t1 < pollInterval`, when the
check at `t1` fires, the check at `t2` on the state it leaves fires again
exactly when the elapsed time at `t1` plus `t2 - t1` reaches two intervals; so
it does not fire when `(t1 - pollStart) mod 2^32 + (t2 - t1) < 2 * pollInterval`. -/
theorem pollCheck_second_fire_iff (pollStart pollInterval t1 t2 : Nat)
    (h12 : t1 ≤ t2) (h2 : t2 < 2 ^ 32)
    (hw : t2 - t1 < pollInterval)
    (hfire : (pollCheck pollStart pollInterval t1).1 = true) :
    ((pollCheck (pollCheck pollStart pollInterval t1).2 pollInterval t2).1 = true
      ↔ 2 * pollInterval ≤ subU32 t1 pollStart + (t2 - t1)) := by
  by_cases hf : subU32 t1 pollStart ≥ pollInterval
  · have h1 : pollCheck pollStart pollInterval t1 = (true, addU32 pollStart pollInterval) := by
      simp [pollCheck, hf]
    rw [h1]
    simp only [subU32, U32] at hf
    by_cases hg : subU32 t2 (addU32 pollStart pollInterval) ≥ pollInterval
    · simp only [pollCheck, hg, if_true, true_iff]
      simp only [subU32, addU32, U32] at hg ⊢
      omega
    · simp only [pollCheck, hg, if_false, Bool.false_eq_true, false_iff]
      simp only [subU32, addU32, U32] at hg ⊢
      omega
  · simp [pollCheck, hf] at hfire

/-- C2, amended, at a concrete state: a check that fires on the deadline
(`pollStart = 0`, interval 5000, `t1 = 5000`) does not fire again at
`t2 = 5200`. -/
theorem pollCheck_second_fire_iff_witness :
    (pollCheck (pollCheck 0 5000 5000).2 5000 5200).1 = true
      ↔ 2 * 5000 ≤ subU32 5000 0 + (5200 - 5000) :=
  pollCheck_second_fire_iff 0 5000 5000 5200 (by decide) (by decide) (by decide)
    (by decide)

/-! ## formatCentered -/

/-- C5: with `lcdWidth = 20` and a buffer of 21, a text of at most 20
characters comes out as `(20 - len) / 2` blanks, the text, and the remaining
`20 - len - (20 - len) / 2` blanks, 20 characters in all; a longer text comes
out as its first 20 characters. -/
theorem formatCentered_width20 (text : CStr) :
    (text.length ≤ 20 →
      formatCentered text 21 20
          = spaces ((20 - text.length) / 2) ++ text
              ++ spaces (20 - text.length - (20 - text.length) / 2)
        ∧ (formatCentered text 21 20).length = 20)
    ∧ (20 < text.length → formatCentered text 21 20 = text.take 20) := by
  constructor
  · intro h
    have hlen : (spaces ((20 - text.length) / 2) ++ text
        ++ spaces (20 - text.length - (20 - text.length) / 2)).length = 20 := by
      simp only [spaces, List.length_append, List.length_replicate]
      omega
    have heq : formatCentered text 21 20
        = spaces ((20 - text.length) / 2) ++ text
            ++ spaces (20 - text.length - (20 - text.length) / 2) := by
      have hn : ¬ text.length > 20 := by omega
      simp only [formatCentered, hn, if_false, snprintf, fmtStrWidth, List.length_nil,
        Nat.sub_zero, List.append_nil]
      exact List.take_of_length_le (by rw [hlen])
    exact ⟨heq, by rw [heq, hlen]⟩
  · intro h
    simp [formatCentered, h]

/-- C5 at concrete texts: `X` is centred to 20 characters, and a text of 21
characters is cut to its first 20. -/
theorem formatCentered_width20_witness :
    (formatCentered "X".toList 21 20 = spaces 9 ++ "X".toList ++ spaces 10
      ∧ (formatCentered "X".toList 21 20).length = 20)
    ∧ formatCentered "ABCDEFGHIJKLMNOPQRSTU".toList 21 20
        = "ABCDEFGHIJKLMNOPQRSTU".toList.take 20 :=
  ⟨(formatCentered_width20 "X".toList).1 (by decide),
   (formatCentered_width20 "ABCDEFGHIJKLMNOPQRSTU".toList).2 (by decide)⟩

/-! ## RAM and disk usage (line 3) -/

/-- A value inside the 32-bit range is its own 32-bit value. -/
theorem wrapInt32_of_fits (x : Int) (hlo : -2147483648 ≤ x) (hhi : x < 2147483648) :
    wrapInt32 x = x := by
  simp only [wrapInt32]
  omega

/-- Under the preconditions of the RAM percentage, and while `used * 100` fits
in a 32-bit `int`, `ramUsage` is the exact quotient `used * 100 / total`, at
most 100. -/
theorem ramUsage_exact_of_fits (m : Metrics)
    (ht : 0 < m.memTotalReal) (hT : m.memTotalReal < 2147483648)
    (ha : 0 ≤ m.memAvailReal) (hb : 0 ≤ m.memBuffer) (hc : 0 ≤ m.memCached)
    (hu : 0 ≤ m.memTotalReal - m.memAvailReal - m.memBuffer - m.memCached)
    (hfit : (m.memTotalReal - m.memAvailReal - m.memBuffer - m.memCached) * 100
      < 2147483648) :
    (ramUsage m : Int)
        = (m.memTotalReal - m.memAvailReal - m.memBuffer - m.memCached) * 100 / m.memTotalReal
      ∧ ramUsage m ≤ 100 := by
  have hused : usedMemory m
      = m.memTotalReal - m.memAvailReal - m.memBuffer - m.memCached := by
    have hg : m.memTotalReal > 0 ∧ m.memAvailReal ≥ 0 ∧ m.memBuffer ≥ 0 ∧ m.memCached ≥ 0 :=
      ⟨ht, ha, hb, hc⟩
    simp only [usedMemory, hg, and_self, if_true]
    rw [wrapInt32_of_fits (m.memTotalReal - m.memAvailReal) (by omega) (by omega),
      wrapInt32_of_fits (m.memTotalReal - m.memAvailReal - m.memBuffer) (by omega) (by omega),
      wrapInt32_of_fits _ (by omega) (by omega)]
  have hg2 : m.memTotalReal > 0 ∧ usedMemory m ≥ 0 := ⟨ht, by rw [hused]; exact hu⟩
  have hq0 : 0 ≤ (m.memTotalReal - m.memAvailReal - m.memBuffer - m.memCached) * 100
      / m.memTotalReal := Int.ediv_nonneg (by omega) (by omega)
  have hq100 : (m.memTotalReal - m.memAvailReal - m.memBuffer - m.memCached) * 100
      / m.memTotalReal ≤ 100 := by
    have h1 : (m.memTotalReal - m.memAvailReal - m.memBuffer - m.memCached) * 100
        ≤ m.memTotalReal * 100 := by omega
    calc (m.memTotalReal - m.memAvailReal - m.memBuffer - m.memCached) * 100 / m.memTotalReal
        ≤ m.memTotalReal * 100 / m.memTotalReal := Int.ediv_le_ediv ht h1
      _ = 100 := by rw [Int.mul_comm]; exact Int.mul_ediv_cancel 100 (by omega)
  have hval : (ramUsage m : Int)
      = (m.memTotalReal - m.memAvailReal - m.memBuffer - m.memCached) * 100
        / m.memTotalReal := by
    have hdef : ramUsage m
        = ((wrapInt32 (usedMemory m * 100)).tdiv m.memTotalReal % 4294967296).toNat := by
      simp only [ramUsage]
      rw [if_pos hg2]
    rw [hdef, hused, wrapInt32_of_fits _ (by omega) hfit,
      Int.tdiv_eq_ediv (by omega) (by omega),
      Int.toNat_of_nonneg (Int.emod_nonneg _ (by decide))]
    exact Int.emod_eq_of_lt hq0 (by omega)
  exact ⟨hval, by omega⟩

/-- The spec's example: total 1000, available 400, buffers 100, cached 100
gives 40 percent. -/
theorem ramUsage_example_40 :
    ramUsage { Metrics.startup with
      memTotalReal := 1000, memAvailReal := 400, memBuffer := 100, memCached := 100 } = 40 := by
  decide

/-- C3, evaluated where it fails: with 32 GiB of memory of which 25 GiB
(26214400 KB) are in use, every precondition holds and the exact quotient is
78, yet `usedMemory * 100` exceeds the 32-bit range, `ramUsage` is 4294967247
and line 3 reads `RAM: 4294967247% Dis`. -/
theorem ramUsage_wraps_on_large_memory :
    0 < ramOverflowMetrics.memTotalReal ∧ 0 ≤ ramOverflowMetrics.memAvailReal
    ∧ 0 ≤ ramOverflowMetrics.memBuffer ∧ 0 ≤ ramOverflowMetrics.memCached
    ∧ ramOverflowMetrics.memTotalReal - ramOverflowMetrics.memAvailReal
        - ramOverflowMetrics.memBuffer - ramOverflowMetrics.memCached = 26214400
    ∧ (26214400 * 100 / ramOverflowMetrics.memTotalReal : Int) = 78
    ∧ ramUsage ramOverflowMetrics = 4294967247
    ∧ ramDiskStr ramOverflowMetrics = "RAM: 4294967247% Dis".toList := by
  decide

/-- The disk half of line 3 is an error exactly when `dskPercent` is outside
`[0, 100]`. -/
theorem diskErr_iff (m : Metrics) :
    diskErr m = true ↔ (m.dskPercent < 0 ∨ 100 < m.dskPercent) := by
  simp [diskErr]

/-- The RAM half of line 3 is an error whenever the total is not positive,
whatever the other fields hold. -/
theorem ramErr_of_total_nonpos (m : Metrics) (h : m.memTotalReal ≤ 0) : ramErr m = true := by
  simp [ramErr, h]

/-- The RAM half of line 3 is an error exactly when a guard fails or the
32-bit value of `total - available - buffers - cached` is negative. -/
theorem ramErr_iff_wrapped (m : Metrics) :
    ramErr m = true ↔
      (m.memTotalReal ≤ 0 ∨ m.memAvailReal < 0 ∨ m.memBuffer < 0 ∨ m.memCached < 0
        ∨ wrapInt32 (m.memTotalReal - m.memAvailReal - m.memBuffer - m.memCached) < 0) := by
  by_cases hg : m.memTotalReal > 0 ∧ m.memAvailReal ≥ 0 ∧ m.memBuffer ≥ 0 ∧ m.memCached ≥ 0
  · simp only [ramErr, usedMemory, hg, and_self, if_true, decide_eq_true_eq, wrapInt32]
    omega
  · simp only [ramErr, usedMemory, hg, if_false, decide_eq_true_eq]
    omega

/-- The two verdicts of line 3 are independent: the line is one of four forms,
selected by `ramErr` and `diskErr`. -/
theorem ramDiskStr_forms (m : Metrics) :
    ramDiskStr m =
      snprintf 21
        ("RAM: ".toList
          ++ (if ramErr m then "Err".toList else fmtUnsigned (ramUsage m) ++ "%".toList)
          ++ " Disk: ".toList
          ++ (if diskErr m then "Err".toList else fmtInt m.dskPercent ++ "%".toList)) := by
  cases hr : ramErr m <;> cases hd : diskErr m <;> simp [ramDiskStr, hr, hd]

/-- C4, evaluated where it fails: for total 1, available 2147483647, buffers
2147483647 and cached 0 (all 32-bit values) the difference
`total - available - buffers - cached` is negative as a mathematical integer,
yet its 32-bit value is 3, the RAM half is not an error and line 3 reads
`RAM: 300% Disk: 0%`. -/
theorem ramErr_missed_when_difference_wraps :
    ramWrapMetrics.memTotalReal - ramWrapMetrics.memAvailReal
        - ramWrapMetrics.memBuffer - ramWrapMetrics.memCached < 0
    ∧ usedMemory ramWrapMetrics = 3
    ∧ ramErr ramWrapMetrics = false
    ∧ ramDiskStr ramWrapMetrics = "RAM: 300% Disk: 0%".toList := by
  decide

/-! ## The startup state -/

/-- C6, refuted as stated: in the startup state a normal render composes line
3 as `RAM: Err Disk: 0%`, not `RAM: Err Disk: Err`: the disk slot, never
written, is shown as a numeric zero. -/
theorem startup_disk_rendered_as_zero :
    ramDiskStr Metrics.startup = "RAM: Err Disk: 0%".toList
    ∧ ramDiskStr Metrics.startup ≠ "RAM: Err Disk: Err".toList
    ∧ overlayActive 46200 Sched.init.menuDisplayStart = false
    ∧ (printToLCD 46200 Sched.init Metrics.startup Renderer.startup).lcd.row2
        ≠ "RAM: Err Disk: Err".toList := by
  decide

/-- C6, amended: in the startup state a normal render composes and writes line
2 as `Load: Err` and line 3 as `RAM: Err Disk: 0%`: the load and RAM fields are
errors, and the disk field, whose initial value 0 lies in `[0, 100]`, is shown
as `0%`. -/
theorem startup_render_lines :
    loadStr Metrics.startup = "Load: Err".toList
    ∧ ramDiskStr Metrics.startup = "RAM: Err Disk: 0%".toList
    ∧ overlayActive 46200 Sched.init.menuDisplayStart = false
    ∧ (printToLCD 46200 Sched.init Metrics.startup Renderer.startup).lcd.row1
        = "Load: Err".toList
    ∧ (printToLCD 46200 Sched.init Metrics.startup Renderer.startup).lcd.row2
        = "RAM: Err Disk: 0%".toList := by
  decide

/-! ## The differential renderer -/

/-- When every cached line equals its display row, a normal `printToLCD` leaves
on each row, and in each cached line, the text composed in that call. -/
theorem printNormal_frame_of_synced (m : Metrics) (r : Renderer)
    (h0 : r.lcd.row0 = r.prevFirstLine) (h1 : r.lcd.row1 = r.prevLoadStr)
    (h2 : r.lcd.row2 = r.prevRamDiskStr) (h3 : r.lcd.row3 = r.prevUptimeStr) :
    printNormal m r =
      { prevFirstLine := firstLine m, prevLoadStr := loadStr m
        prevRamDiskStr := ramDiskStr m, prevUptimeStr := uptimeLine m
        lcd := { row0 := firstLine m, row1 := loadStr m, row2 := ramDiskStr m
                 row3 := uptimeLine m } } := by
  obtain ⟨p0, p1, p2, p3, ⟨l0, l1, l2, l3⟩⟩ := r
  simp only at h0 h1 h2 h3
  subst h0 h1 h2 h3
  by_cases e0 : firstLine m = l0 <;> by_cases e1 : loadStr m = l1 <;>
    by_cases e2 : ramDiskStr m = l2 <;> by_cases e3 : uptimeLine m = l3 <;>
    simp [printNormal, LCD.printAt, e0, e1, e2, e3]

/-- C7, evaluated where it fails: from the startup state, a normal call, a call
while the overlay is active and a normal call again, on unchanged metrics, leave
the overlay text on row 0 and rows 1 to 3 blank, although the last call ran with
the overlay inactive and composed four non-empty lines: the overlay branch
clears the display but not the cached lines. -/
theorem frame_lost_after_overlay :
    overlayActive 46200 Sched.init.menuDisplayStart = false
    ∧ overlayActive 51200 pressedSched.menuDisplayStart = true
    ∧ overlayActive 61200 pressedSched.menuDisplayStart = false
    ∧ (renderAll Renderer.startup overlayThenNormal).lcd
        = { row0 := " Poll interval: 10  ".toList, row1 := [], row2 := [], row3 := [] }
    ∧ firstLine Metrics.startup = "  DN:0.0K UP:0.0K   ".toList
    ∧ loadStr Metrics.startup = "Load: Err".toList
    ∧ ramDiskStr Metrics.startup = "RAM: Err Disk: 0%".toList
    ∧ uptimeLine Metrics.startup = "   Up: 0:00:00:00   ".toList
    ∧ (renderAll Renderer.startup overlayThenNormal).prevLoadStr
        ≠ (renderAll Renderer.startup overlayThenNormal).lcd.row1 := by
  decide

/-! ## The overlay line -/

/-- For the candidate intervals of one-digit seconds the overlay line is the
centring of the full text; for the six others it is not. -/
theorem overlayLine_full_iff_one_digit :
    ∀ v ∈ pollIntervals,
      (overlayLine v = formatCentered (overlayText v) 21 20 ↔ v < 10000) := by
  decide

/-- C8, evaluated where it fails: for the candidate interval 10000 ms the text
`Poll interval: 10s` has 18 characters, `pollStr` holds only 17, and row 0
receives ` Poll interval: 10  `, without the unit, instead of the centring
` Poll interval: 10s ` of the full text. -/
theorem overlay_drops_unit_at_10000 (m : Metrics) (r : Renderer) :
    pressedSched.pollInterval = 10000 ∧ 10000 ∈ pollIntervals
    ∧ overlayActive 51200 pressedSched.menuDisplayStart = true
    ∧ overlayText 10000 = "Poll interval: 10s".toList
    ∧ formatCentered (overlayText 10000) 21 20 = " Poll interval: 10s ".toList
    ∧ (printToLCD 51200 pressedSched m r).lcd.row0 = " Poll interval: 10  ".toList := by
  refine ⟨by decide, by decide, by decide, by decide, by decide, ?_⟩
  have ha : overlayActive 51200 pressedSched.menuDisplayStart = true := by decide
  have hl : overlayLine pressedSched.pollInterval = " Poll interval: 10  ".toList := by decide
  simp only [printToLCD, ha, if_true, printOverlay, LCD.printAt, LCD.clear, hl]

/-! ## The uptime line -/

/-- The decomposition of lines 250-256: the parts recompose to the whole
seconds, with hours below 24 and minutes and seconds below 60. -/
theorem splitUptime_recompose (u : Nat) :
    (splitUptime u).1 * 86400 + (splitUptime u).2.1 * 3600 + (splitUptime u).2.2.1 * 60
        + (splitUptime u).2.2.2 = u / 100
    ∧ (splitUptime u).2.1 < 24 ∧ (splitUptime u).2.2.1 < 60 ∧ (splitUptime u).2.2.2 < 60 := by
  simp only [splitUptime]
  omega

/-- The spec's examples: no uptime splits into zeros, 24 hours into one day. -/
theorem splitUptime_examples :
    splitUptime 0 = (0, 0, 0, 0) ∧ splitUptime 8640000 = (1, 0, 0, 0) := by
  decide

/-- C9, evaluated where it fails: at an uptime of exactly 100 days
(864000000 hundredths) the parts are (100, 0, 0, 0) and the full text
`Up: 100:00:00:00` has 16 characters, but `uptimeStr` holds only 15: line 4
is the centring of `Up: 100:00:00:0`, with the seconds cut to one digit. -/
theorem uptime_seconds_cut_at_100_days :
    hundredDaysMetrics.uptime < 2 ^ 32
    ∧ splitUptime hundredDaysMetrics.uptime = (100, 0, 0, 0)
    ∧ uptimeText 100 0 0 0 = "Up: 100:00:00:00".toList
    ∧ uptimeLine hundredDaysMetrics = "  Up: 100:00:00:0   ".toList
    ∧ uptimeLine hundredDaysMetrics ≠ formatCentered (uptimeText 100 0 0 0) 21 20 := by
  decide

/-! ## formatTraffic -/

/-- No halving is needed below `2^24`. -/
theorem f32Shift_of_lt (fuel n : Nat) (h : n < 2 ^ 24) : f32Shift fuel n = 0 := by
  cases fuel with
  | zero => rfl
  | succ k => simp only [f32Shift, if_pos h]

/-- With enough fuel, `f32Shift` leaves a quotient of exactly 24 bits. -/
theorem f32Shift_spec (fuel : Nat) :
    ∀ n, n < 2 ^ (24 + fuel) →
      f32Shift fuel n ≤ fuel ∧ n / 2 ^ f32Shift fuel n < 2 ^ 24
        ∧ (2 ^ 24 ≤ n → 1 ≤ f32Shift fuel n ∧ 2 ^ 23 ≤ n / 2 ^ f32Shift fuel n) := by
  induction fuel with
  | zero =>
    intro n h
    simp only [f32Shift, Nat.add_zero, Nat.pow_zero, Nat.div_one] at h ⊢
    omega
  | succ k ih =>
    intro n h
    by_cases hlt : n < 2 ^ 24
    · simp only [f32Shift, if_pos hlt, Nat.pow_zero, Nat.div_one]
      omega
    · have hhalf : n / 2 < 2 ^ (24 + k) := by
        have hp : 2 ^ (24 + (k + 1)) = 2 ^ (24 + k) * 2 := pow_succ 2 (24 + k)
        rw [hp] at h
        generalize 2 ^ (24 + k) = X at h ⊢
        omega
      obtain ⟨h1, h2, h3⟩ := ih (n / 2) hhalf
      have hdiv : n / 2 ^ (f32Shift k (n / 2) + 1) = n / 2 / 2 ^ f32Shift k (n / 2) := by
        rw [Nat.pow_succ, Nat.mul_comm, Nat.div_div_eq_div_mul]
      simp only [f32Shift, if_neg hlt, hdiv]
      refine ⟨by omega, h2, fun _ => ⟨by omega, ?_⟩⟩
      by_cases hh : 2 ^ 24 ≤ n / 2
      · exact (h3 hh).2
      · have h0 : f32Shift k (n / 2) = 0 := f32Shift_of_lt k (n / 2) (by omega)
        rw [h0, Nat.pow_zero, Nat.div_one]
        omega

/-- The binade of a count of at least `2^24`: the shift `e` used by
`toFloat32`, with the count and its `float` both between `2^(23+e)` and
`2^(24+e)`. -/
theorem toFloat32_binade (n : Nat) (h24 : 2 ^ 24 ≤ n) (h64 : n < 2 ^ 64) :
    ∃ e, f32Shift 40 n = e ∧ 1 ≤ e ∧ 2 ^ 23 ≤ n / 2 ^ e ∧ n / 2 ^ e < 2 ^ 24
      ∧ 2 ^ (23 + e) ≤ n ∧ n < 2 ^ (24 + e)
      ∧ 2 ^ (23 + e) ≤ toFloat32 n ∧ toFloat32 n ≤ 2 ^ (24 + e) := by
  obtain ⟨_, h2, h3⟩ := f32Shift_spec 40 n (by norm_num; omega)
  obtain ⟨h4, h5⟩ := h3 h24
  have hn : ¬ n < 2 ^ 24 := by omega
  have hT : toFloat32 n
      = (if n % 2 ^ f32Shift 40 n > 2 ^ f32Shift 40 n / 2
            ∨ (n % 2 ^ f32Shift 40 n = 2 ^ f32Shift 40 n / 2
                ∧ n / 2 ^ f32Shift 40 n % 2 = 1)
          then n / 2 ^ f32Shift 40 n + 1 else n / 2 ^ f32Shift 40 n)
        * 2 ^ f32Shift 40 n := by
    simp only [toFloat32, if_neg hn]
  rw [hT]
  refine ⟨f32Shift 40 n, rfl, h4, h5, h2, ?_, ?_, ?_, ?_⟩
  all_goals try split_ifs
  all_goals
    generalize f32Shift 40 n = e at *
    have hP : 0 < 2 ^ e := Nat.two_pow_pos e
    have hdm := Nat.div_add_mod n (2 ^ e)
    have hr := Nat.mod_lt n hP
    have hlo : 2 ^ (23 + e) = 2 ^ 23 * 2 ^ e := Nat.pow_add 2 23 e
    have hhi : 2 ^ (24 + e) = 2 ^ 24 * 2 ^ e := Nat.pow_add 2 24 e
    have hq1 : 2 ^ 23 * 2 ^ e ≤ n / 2 ^ e * 2 ^ e := Nat.mul_le_mul_right _ h5
    have hq2 : (n / 2 ^ e + 1) * 2 ^ e ≤ 2 ^ 24 * 2 ^ e := Nat.mul_le_mul_right _ h2
    have hq3 : (n / 2 ^ e + 1) * 2 ^ e = n / 2 ^ e * 2 ^ e + 2 ^ e := by ring
    have hc : 2 ^ e * (n / 2 ^ e) = n / 2 ^ e * 2 ^ e := Nat.mul_comm _ _
    rw [hlo] at *
    rw [hhi] at *
    generalize 2 ^ e = P at *
    generalize n / P = q at *
    generalize n % P = r at *
    generalize q * P = qP at *
    generalize (q + 1) * P = q1P at *
    generalize 2 ^ 23 * P = lo at *
    generalize 2 ^ 24 * P = hi at *
  all_goals omega

/-- The `float` of a count of at least `2^24`, with the shift made explicit. -/
theorem toFloat32_of_shift (n e : Nat) (h24 : 2 ^ 24 ≤ n) (he : f32Shift 40 n = e) :
    toFloat32 n
      = (if n % 2 ^ e > 2 ^ e / 2 ∨ (n % 2 ^ e = 2 ^ e / 2 ∧ n / 2 ^ e % 2 = 1)
          then n / 2 ^ e + 1 else n / 2 ^ e) * 2 ^ e := by
  have hn : ¬ n < 2 ^ 24 := by omega
  simp only [toFloat32, if_neg hn, he]

/-- Rounding a 24-bit quotient `q` with remainder `r` out of `2 * H` reaches
`2^24` exactly when `q * (2 * H) + r` is within `H` of `2^24 * (2 * H)`. -/
theorem round_reaches_top_iff (H q r : Nat) (hH : 0 < H) (hr : r < H * 2)
    (hq : q < 16777216) :
    16777216 * (H * 2) ≤ (if r > H ∨ (r = H ∧ q % 2 = 1) then q + 1 else q) * (H * 2)
      ↔ 16777216 * (H * 2) - H ≤ q * (H * 2) + r := by
  by_cases hq1 : q = 16777215
  · subst hq1
    split_ifs <;> omega
  · have hqle : q * (H * 2) ≤ 16777214 * (H * 2) := Nat.mul_le_mul_right _ (by omega)
    have hs : (q + 1) * (H * 2) = q * (H * 2) + H * 2 := by ring
    split_ifs
    · rw [hs]
      generalize q * (H * 2) = qP at *
      omega
    · generalize q * (H * 2) = qP at *
      omega

/-- Where the conversion to `float` crosses a power of two: the `float` of a
64-bit count reaches `2^p` exactly when the count reaches `2^p - 2^(p-25)`,
half a unit in the last place below `2^p`. -/
theorem toFloat32_ge_pow_iff (n p : Nat) (hp : 25 ≤ p) (h64 : n < 2 ^ 64) :
    2 ^ p ≤ toFloat32 n ↔ 2 ^ p - 2 ^ (p - 25) ≤ n := by
  obtain ⟨p1, rfl⟩ : ∃ p1, p = p1 + 1 := ⟨p - 1, by omega⟩
  have hpp : 2 ^ (p1 + 1) = 2 ^ p1 * 2 := pow_succ 2 p1
  have hsmall : 2 ^ (p1 + 1 - 25) ≤ 2 ^ p1 := Nat.pow_le_pow_right (by decide) (by omega)
  have hbig : 2 ^ 24 ≤ 2 ^ p1 := Nat.pow_le_pow_right (by decide) (by omega)
  by_cases h24 : n < 2 ^ 24
  · have : toFloat32 n = n := by simp only [toFloat32, if_pos h24]
    rw [this]
    omega
  · obtain ⟨e, hshift, he1, hq23, hq24, hnlo, hnhi, hflo, hfhi⟩ :=
      toFloat32_binade n (by omega) h64
    rcases Nat.lt_trichotomy (e + 23) p1 with hlt | heq | hgt
    · have h1 : 2 ^ (24 + e) ≤ 2 ^ p1 := Nat.pow_le_pow_right (by decide) (by omega)
      omega
    · subst heq
      obtain ⟨k, rfl⟩ : ∃ k, e = k + 1 := ⟨e - 1, by omega⟩
      have hT := toFloat32_of_shift n (k + 1) (by omega) hshift
      have hP : 2 ^ (k + 1) = 2 ^ k * 2 := pow_succ 2 k
      have hH : 0 < 2 ^ k := Nat.two_pow_pos _
      have hpe : 2 ^ (k + 1 + 23 + 1) = 16777216 * 2 ^ (k + 1) := by
        have : k + 1 + 23 + 1 = 24 + (k + 1) := by omega
        rw [this, Nat.pow_add]
      have he25 : k + 1 + 23 + 1 - 25 = k := by omega
      have hdm := Nat.div_add_mod n (2 ^ (k + 1))
      have hr := Nat.mod_lt n (Nat.two_pow_pos (k + 1))
      rw [hT, hpe, he25]
      rw [hP] at hdm hr hq24 ⊢
      have hH2 : 2 ^ k * 2 / 2 = 2 ^ k := Nat.mul_div_cancel _ (by decide)
      rw [hH2]
      have key := round_reaches_top_iff (2 ^ k) (n / (2 ^ k * 2)) (n % (2 ^ k * 2)) hH hr hq24
      rw [key, Nat.mul_comm (n / (2 ^ k * 2)) (2 ^ k * 2), hdm]
    · have h1 : 2 ^ (p1 + 1) ≤ 2 ^ (23 + e) := Nat.pow_le_pow_right (by decide) (by omega)
      have h2 : 2 ^ (p1 + 1) - 2 ^ (p1 + 1 - 25) ≤ 2 ^ (p1 + 1) := Nat.sub_le _ _
      exact ⟨fun _ => by omega, fun _ => by omega⟩

/-- Below `2^24` the conversion to `float` is exact, so it crosses the small
powers of two where the count does. -/
theorem toFloat32_ge_small_iff (n t : Nat) (ht : t ≤ 2 ^ 24) (h64 : n < 2 ^ 64) :
    t ≤ toFloat32 n ↔ t ≤ n := by
  by_cases h24 : n < 2 ^ 24
  · simp only [toFloat32, if_pos h24]
  · obtain ⟨e, _, _, _, _, hnlo, _, hflo, _⟩ := toFloat32_binade n (by omega) h64
    have h1 : 2 ^ 24 ≤ 2 ^ (23 + e) := Nat.pow_le_pow_right (by decide) (by omega)
    omega

/-- A quotient of natural numbers compared with 1 and with 1024. -/
theorem quotient_bounds (v d : Nat) (hd : 0 < d) :
    (1 ≤ (v : ℚ) / (d : ℚ) ↔ d ≤ v) ∧ ((v : ℚ) / (d : ℚ) < 1024 ↔ v < 1024 * d) := by
  have hd' : (0 : ℚ) < (d : ℚ) := Nat.cast_pos.mpr hd
  constructor
  · rw [le_div_iff₀ hd', one_mul, Nat.cast_le]
  · rw [div_lt_iff₀ hd']
    exact_mod_cast Iff.rfl

/-- C10, refuted as stated: a count of `2^50` bytes (1 PiB) is at least 1024,
its unit is T, the largest there is, and its magnitude is exactly 1024, not
below 1024 (the text is `1024.0T`); and the count `2^40 - 1`, below `2^40`,
gets the unit T, not G, since the comparison is made on its `float`. -/
theorem traffic_magnitude_reaches_1024 :
    (2 : Nat) ^ 50 < 2 ^ 64 ∧ 1024 ≤ (2 : Nat) ^ 50
    ∧ trafficUnit (2 ^ 50) = 'T'
    ∧ ¬ trafficMagnitude (2 ^ 50) < 1024
    ∧ formatTraffic (2 ^ 50) 10 = "1024.0T".toList
    ∧ (2 : Nat) ^ 40 - 1 < 2 ^ 40 ∧ trafficUnit (2 ^ 40 - 1) = 'T' := by
  refine ⟨by decide, by decide, by decide, ?_, by decide, by decide, by decide⟩
  have h : scaleTraffic (2 ^ 50) = (2 ^ 50, 1099511627776, 'T') := by decide
  simp only [trafficMagnitude, h]
  norm_num

/-- C10, amended: for every 64-bit byte count `b` the unit is K, M, G or T,
chosen on the count converted to `float`: T from `2^40 - 2^15` on, else G from
`2^30 - 2^5` on, else M from `2^20` on, else K.  For `b >= 1024` the magnitude
(the converted count divided by the unit's power of 1024) is at least 1, and
it is below 1024 exactly when `b < 2^50 - 2^25`: T is the largest unit. -/
theorem trafficUnit_and_magnitude (b : Nat) (hb : b < 2 ^ 64) :
    trafficUnit b ∈ ['K', 'M', 'G', 'T']
    ∧ (trafficUnit b = 'T' ↔ 2 ^ 40 - 2 ^ 15 ≤ b)
    ∧ (trafficUnit b = 'G' ↔ 2 ^ 30 - 2 ^ 5 ≤ b ∧ b < 2 ^ 40 - 2 ^ 15)
    ∧ (trafficUnit b = 'M' ↔ 2 ^ 20 ≤ b ∧ b < 2 ^ 30 - 2 ^ 5)
    ∧ (trafficUnit b = 'K' ↔ b < 2 ^ 20)
    ∧ (1024 ≤ b → 1 ≤ trafficMagnitude b)
    ∧ (1024 ≤ b → (trafficMagnitude b < 1024 ↔ b < 2 ^ 50 - 2 ^ 25)) := by
  have hT := toFloat32_ge_pow_iff b 40 (by decide) hb
  have hG := toFloat32_ge_pow_iff b 30 (by decide) hb
  have hP := toFloat32_ge_pow_iff b 50 (by decide) hb
  have hM := toFloat32_ge_small_iff b (2 ^ 20) (by decide) hb
  have hK := toFloat32_ge_small_iff b 1024 (by decide) hb
  norm_num at hT hG hP hM hK ⊢
  by_cases c1 : 1099511627776 ≤ toFloat32 b
  · have hs : scaleTraffic b = (toFloat32 b, 1099511627776, 'T') := by
      simp only [scaleTraffic, ge_iff_le, if_pos c1]
    obtain ⟨q1, q2⟩ := quotient_bounds (toFloat32 b) 1099511627776 (by decide)
    simp only [trafficUnit, trafficMagnitude, hs, q1, q2]
    refine ⟨by simp, by simp; omega, by simp; omega, by simp; omega, by simp; omega, ?_, ?_⟩
      <;> omega
  · by_cases c2 : 1073741824 ≤ toFloat32 b
    · have hs : scaleTraffic b = (toFloat32 b, 1073741824, 'G') := by
        simp only [scaleTraffic, ge_iff_le, if_neg c1, if_pos c2]
      obtain ⟨q1, q2⟩ := quotient_bounds (toFloat32 b) 1073741824 (by decide)
      simp only [trafficUnit, trafficMagnitude, hs, q1, q2]
      refine ⟨by simp, by simp; omega, by simp; omega, by simp; omega, by simp; omega, ?_, ?_⟩
      <;> omega
    · by_cases c3 : 1048576 ≤ toFloat32 b
      · have hs : scaleTraffic b = (toFloat32 b, 1048576, 'M') := by
          simp only [scaleTraffic, ge_iff_le, if_neg c1, if_neg c2, if_pos c3]
        obtain ⟨q1, q2⟩ := quotient_bounds (toFloat32 b) 1048576 (by decide)
        simp only [trafficUnit, trafficMagnitude, hs, q1, q2]
        refine ⟨by simp, by simp; omega, by simp; omega, by simp; omega, by simp; omega, ?_, ?_⟩
      <;> omega
      · have hs : scaleTraffic b = (toFloat32 b, 1024, 'K') := by
          simp only [scaleTraffic, ge_iff_le, if_neg c1, if_neg c2, if_neg c3]
        obtain ⟨q1, q2⟩ := quotient_bounds (toFloat32 b) 1024 (by decide)
        simp only [trafficUnit, trafficMagnitude, hs, q1, q2]
        refine ⟨by simp, by simp; omega, by simp; omega, by simp; omega, by simp; omega, ?_, ?_⟩
      <;> omega

/-- C10, amended, at a concrete count: 2 MiB gets the unit M. -/
theorem trafficUnit_and_magnitude_witness :
    (trafficUnit 2097152 = 'M' ↔ 2 ^ 20 ≤ 2097152 ∧ 2097152 < 2 ^ 30 - 2 ^ 5)
    ∧ (1024 ≤ 2097152 → 1 ≤ trafficMagnitude 2097152) :=
  have h := trafficUnit_and_magnitude 2097152 (by decide)
  ⟨h.2.2.2.1, h.2.2.2.2.2.1⟩

/-- The one-decimal text can read 1024 below a threshold: 1048575 bytes are
printed as `1024.0K`; and the final `.0` is removed only when the unit letter
did not fit the buffer. -/
theorem formatTraffic_examples :
    formatTraffic 1048575 10 = "1024.0K".toList
    ∧ formatTraffic 2097152 10 = "2.0M".toList
    ∧ formatTraffic (1234567 * 2 ^ 40) 10 = "1234567".toList := by
  decide

/-- The spec's scenario: 2 MiB in and 1 MiB out give `DN:2.0M UP:1.0M`, centred
in 20 columns. -/
theorem formatFirstLine_example :
    formatFirstLine 2097152 1048576 21 = formatCentered "DN:2.0M UP:1.0M".toList 21 20 := by
  decide

/-- Numbers below 100 print with at most two digits, and with exactly two
under `%02lu`. -/
theorem two_digits_below_100 :
    ∀ n < 100, (fmtUnsigned n).length ≤ 2 ∧ (fmtUnsigned02 n).length = 2 := by
  decide

/-- Below 100 days of uptime the buffer `uptimeStr` holds the full text, so
line 4 is its centring. -/
theorem uptimeLine_full_below_100_days (m : Metrics) (h : m.uptime < 864000000) :
    uptimeLine m
      = formatCentered (uptimeText (splitUptime m.uptime).1 (splitUptime m.uptime).2.1
          (splitUptime m.uptime).2.2.1 (splitUptime m.uptime).2.2.2) 21 20 := by
  have hd : (splitUptime m.uptime).1 < 100 := by
    simp only [splitUptime]
    omega
  obtain ⟨_, h1, h2, h3⟩ := splitUptime_recompose m.uptime
  have l0 := (two_digits_below_100 _ hd).1
  have l1 := (two_digits_below_100 _ (by omega : (splitUptime m.uptime).2.1 < 100)).2
  have l2 := (two_digits_below_100 _ (by omega : (splitUptime m.uptime).2.2.1 < 100)).2
  have l3 := (two_digits_below_100 _ (by omega : (splitUptime m.uptime).2.2.2 < 100)).2
  have hstr : uptimeStr m.uptime
      = uptimeText (splitUptime m.uptime).1 (splitUptime m.uptime).2.1
          (splitUptime m.uptime).2.2.1 (splitUptime m.uptime).2.2.2 := by
    simp only [uptimeStr, uptimeText, snprintf]
    apply List.take_of_length_le
    simp only [List.length_append]
    have e1 : "Up: ".toList.length = 4 := by decide
    have e2 : ":".toList.length = 1 := by decide
    rw [e1, e2]
    omega
  simp only [uptimeLine, hstr]

end EspSnmp
